import Mathlib

/-!
Verification development for the rustbucket repository: an FTP-like shell over
an S3-style object store.  The definitions below are shallow embeddings of the
Rust sources (`src/s3.rs`, `src/commands.rs`, `src/lib.rs`): paths are strings,
the filesystem and the storage service are explicit oracles, and every fallible
operation returns `Except`.  Machine strings are modelled through their
character lists so that all definitions reduce in the kernel.
-/

/-- Error kinds of `src/error.rs` (`ErrorKind`). -/
inductive ErrorKind where
  | ioErr
  | invalidCommand
  | invalidTarget
  | other
  | readline
  | s3
  | targetAlreadyExists
  | userExit
deriving DecidableEq

/-- Decidable equality for `Except`, used to evaluate embedded results. -/
instance {ε α : Type} [DecidableEq ε] [DecidableEq α] : DecidableEq (Except ε α) := fun x y =>
  match x, y with
  | .ok a, .ok b =>
    if h : a = b then .isTrue (congrArg Except.ok h)
    else .isFalse (fun hh => h (Except.ok.inj hh))
  | .error e, .error f =>
    if h : e = f then .isTrue (congrArg Except.error h)
    else .isFalse (fun hh => h (Except.error.inj hh))
  | .ok _, .error _ => .isFalse (fun hh => Except.noConfusion hh)
  | .error _, .ok _ => .isFalse (fun hh => Except.noConfusion hh)

/-- Splits a character list at `'/'` (the Unix path separator used throughout
the sources); mirror of Rust's `split('/')` on the underlying string. -/
def splitSlashAux : List Char → List Char → List (List Char)
  | [], acc => [acc.reverse]
  | c :: rest, acc =>
    if c = '/' then acc.reverse :: splitSlashAux rest []
    else splitSlashAux rest (c :: acc)

/-- Path segments of a string, split at `'/'`. -/
def splitSlash (s : String) : List String := (splitSlashAux s.data []).map String.mk

/-- Does the string start with `'/'`?  Mirror of `Path::is_absolute` /
`str::starts_with('/')` for the Unix paths the program manipulates. -/
def headIsSlash (s : String) : Bool :=
  match s.data with
  | c :: _ => decide (c = '/')
  | [] => false

/-- Does the string end with `'/'`?  Mirror of `str::ends_with('/')`. -/
def endsWithSlash (s : String) : Bool :=
  match s.data.getLast? with
  | some c => decide (c = '/')
  | none => false

/-- Does the string end with `'/'` or `'\\'`?  Mirror of the destination check
`s.ends_with('/') || s.ends_with('\\')` in `get_file`. -/
def endsWithSep (s : String) : Bool :=
  match s.data.getLast? with
  | some c => decide (c = '/') || decide (c = '\\')
  | none => false

/-- Mirror of `Path::join` / `PathBuf::push` on Unix: an absolute argument
replaces the base, otherwise the argument is appended behind a separator. -/
def joinPath (base p : String) : String :=
  if headIsSlash p then p
  else if base = "" then p
  else if endsWithSlash base then base ++ p
  else base ++ "/" ++ p

/-- Mirror of `str::strip_prefix`: removes `pfx` from the front of `s` when it
is a prefix, and fails otherwise. -/
def stripPrefixOpt (pfx s : String) : Option String :=
  if pfx.data.isPrefixOf s.data then some (String.mk (s.data.drop pfx.data.length))
  else none

/-- Does the string contain the delimiter `'/'`?  Mirror of
`str::contains('/')`. -/
def containsSlash (s : String) : Bool := s.data.contains '/'

/-- Components of a Rust `Path`, as produced by `Path::components()` on Unix. -/
inductive PathComponent where
  | rootDir
  | curDir
  | parentDir
  | normal (name : String)
deriving DecidableEq

/-- Classifies one non-empty, non-`"."` path segment the way
`Path::components()` does. -/
def componentOfSegment (seg : String) : PathComponent :=
  if seg = ".." then PathComponent.parentDir else PathComponent.normal seg

/-- Mirror of `Path::components()` on Unix: empty segments collapse, `"."` is
normalized away except as a leading component, a leading `'/'` becomes
`RootDir`, and `".."` stays as `ParentDir`. -/
def pathComponents (s : String) : List PathComponent :=
  let segs := (splitSlash s).filter (fun t => decide (t ≠ ""))
  if headIsSlash s then
    PathComponent.rootDir ::
      (segs.filter (fun t => decide (t ≠ "."))).map componentOfSegment
  else
    match segs with
    | [] => []
    | first :: rest =>
      if first = "." then
        PathComponent.curDir ::
          (rest.filter (fun t => decide (t ≠ "."))).map componentOfSegment
      else
        componentOfSegment first ::
          (rest.filter (fun t => decide (t ≠ "."))).map componentOfSegment

/-- Textual form of one component, used to rebuild the key below the bucket
(`components.as_path().to_str()`). -/
def renderComponent : PathComponent → String
  | PathComponent.rootDir => "/"
  | PathComponent.curDir => "."
  | PathComponent.parentDir => ".."
  | PathComponent.normal n => n

/-- Rejoins components with the separator; mirror of `Components::as_path` for
the components remaining after the bucket. -/
def keyOfComponents (cs : List PathComponent) : String :=
  String.intercalate "/" (cs.map renderComponent)

/-- Mirror of `Path::file_name`: the last component when it is a normal one. -/
def fileName (s : String) : Option String :=
  match (pathComponents s).getLast? with
  | some (PathComponent.normal n) => some n
  | _ => none

/-- Mirror of `PathBuf::pop` (truncation to the parent): drops the last
component and renders the remainder. -/
def popPath (s : String) : String :=
  match (pathComponents s).dropLast with
  | PathComponent.rootDir :: rest =>
    "/" ++ String.intercalate "/" (rest.map renderComponent)
  | cs => String.intercalate "/" (cs.map renderComponent)

/-- Worker for lexical path cleaning: walks the segments keeping a stack of
kept segments; mirror of the `path_clean` crate used for remote paths. -/
def cleanSegsAux (abs : Bool) : List String → List String → List String
  | [], acc => acc.reverse
  | seg :: rest, acc =>
    if seg = "" ∨ seg = "." then cleanSegsAux abs rest acc
    else if seg = ".." then
      match acc with
      | [] => if abs then cleanSegsAux abs rest [] else cleanSegsAux abs rest [".."]
      | top :: accRest =>
        if top = ".." then cleanSegsAux abs rest (".." :: acc)
        else cleanSegsAux abs rest accRest
    else cleanSegsAux abs rest (seg :: acc)

/-- Mirror of `PathClean::clean`: collapses repeated separators and `"."`,
resolves `".."` lexically, and keeps absolute paths absolute. -/
def clean (s : String) : String :=
  let abs := headIsSlash s
  let cleaned := cleanSegsAux abs (splitSlash s) []
  if abs then "/" ++ String.intercalate "/" cleaned
  else if cleaned.isEmpty then "."
  else String.intercalate "/" cleaned

/-- The virtual remote path of `src/s3.rs` (`S3Path`). -/
structure S3Path where
  bucket : Option String
  key : Option String
deriving DecidableEq

/-- Mirror of `S3Path::has_bucket`. -/
def S3Path.has_bucket (p : S3Path) : Bool := p.bucket.isSome

/-- Mirror of `S3Path::has_key_and_bucket`. -/
def S3Path.has_key_and_bucket (p : S3Path) : Bool := p.has_bucket && p.key.isSome

/-- Mirror of the `components.find_map(..)` scan in `S3Path::try_from_path`:
skips root (and prefix) components, errors on `".."`/`"."`, and returns the
first normal component together with the components after it. -/
def findBucketComponent :
    List PathComponent → Except ErrorKind (Option (String × List PathComponent))
  | [] => .ok none
  | PathComponent.normal b :: rest => .ok (some (b, rest))
  | PathComponent.parentDir :: _ => .error .invalidTarget
  | PathComponent.curDir :: _ => .error .invalidTarget
  | PathComponent.rootDir :: rest => findBucketComponent rest

/-- Mirror of `S3Path::try_from_path` (src/s3.rs): the first normal component
becomes the bucket and the remaining components, rejoined, become the key. -/
def S3Path.try_from_path (s : String) : Except ErrorKind S3Path :=
  match findBucketComponent (pathComponents s) with
  | .error e => .error e
  | .ok none => .ok { bucket := none, key := none }
  | .ok (some (b, rest)) =>
    let keyStr := keyOfComponents rest
    .ok { bucket := some b, key := if keyStr = "" then none else some keyStr }

/-- Lexicographic comparison of character lists by code point; mirror of
Rust's `Ord` on `String` (UTF-8 byte order agrees with code-point order). -/
def lexLe : List Char → List Char → Bool
  | [], _ => true
  | _ :: _, [] => false
  | a :: as, b :: bs => if a < b then true else if b < a then false else lexLe as bs

/-- Boolean lexicographic order on strings. -/
def strLeB (a b : String) : Bool := lexLe a.data b.data

/-- Propositional form of the lexicographic order on strings. -/
def strLeP (a b : String) : Prop := strLeB a b = true

instance : DecidableRel strLeP := fun a b =>
  inferInstanceAs (Decidable (strLeB a b = true))

/-- Mirror of `Vec::sort_unstable` on `Vec<String>`: sorts lexicographically.
Insertion sort is used so the model evaluates inside the kernel; for a total
order any sorting function yields the same list. -/
def sortStrings (l : List String) : List String := List.insertionSort strLeP l

/-- One page of an S3 `ListObjectsV2` response, with the optional fields the
Rust code has to unwrap (`common_prefixes`, `contents`, and the optional
`prefix`/`key` of each entry). -/
structure S3Page where
  commonPrefixes : Option (List (Option String))
  contents : Option (List (Option String))

/-- Mirror of the common-prefix normalization in `RBS3::list_files`: the
queried prefix is stripped when one was given, otherwise the entry is kept. -/
def cleanCommonPfx (pfx? : Option String) (cp : String) : Option String :=
  match pfx? with
  | some p => stripPrefixOpt p cp
  | none => some cp

/-- The `strip_prefix` step applied to an object key in `RBS3::list_files`
before the delimiter check. -/
def stripRemainder (pfx? : Option String) (k : String) : Option String :=
  match pfx? with
  | some p => stripPrefixOpt p k
  | none => some k

/-- Mirror of the object-key normalization in `RBS3::list_files`: strip the
queried prefix and drop the key when the remainder still contains `'/'`. -/
def cleanKey (pfx? : Option String) (k : String) : Option String :=
  match stripRemainder pfx? k with
  | some r => if containsSlash r then none else some r
  | none => none

/-- Pseudo-directory names one page contributes (`output.common_prefixes`). -/
def pageDirNames (pfx? : Option String) (page : S3Page) : List String :=
  ((page.commonPrefixes.getD []).filterMap id).filterMap (cleanCommonPfx pfx?)

/-- File names one page contributes (`output.contents`). -/
def pageFileNames (pfx? : Option String) (page : S3Page) : List String :=
  ((page.contents.getD []).filterMap id).filterMap (cleanKey pfx?)

/-- Mirror of `RBS3::list_files` (src/s3.rs): accumulate directory names and
file names across all pages of the paged query, then sort each group and
return directories followed by files.  The pagination loop is modelled by the
page list (one element per continuation step). -/
def listFiles (pfx? : Option String) (pages : List S3Page) : List String :=
  let acc := pages.foldl
    (fun acc page => (acc.1 ++ pageDirNames pfx? page, acc.2 ++ pageFileNames pfx? page))
    (([], []) : List String × List String)
  sortStrings acc.1 ++ sortStrings acc.2

/-- Mirror of `RBS3::list_buckets` (src/s3.rs): keep the names that are
present, in service order; no sorting is performed. -/
def listBuckets (bucketNames : List (Option String)) : List String :=
  bucketNames.filterMap id

/-- Mirror of the service side of `object_exists`: a `ListObjectsV2` query
with the key as prefix and no delimiter reports the number of object keys
that start with that prefix. -/
def s3KeyCount (objectKeys : List String) (pfx : String) : Option Nat :=
  some ((objectKeys.filter (fun k => pfx.data.isPrefixOf k.data)).length)

/-- Mirror of `RBS3::object_exists` (src/s3.rs): true exactly when the
reported key count is present and nonzero. -/
def objectExists (objectKeys : List String) (key : String) : Bool :=
  match s3KeyCount objectKeys key with
  | none => false
  | some count => decide (count ≠ 0)

/-- Failure kinds of local filesystem operations (`std::io::ErrorKind` cases
the code distinguishes). -/
inductive LocalErrKind where
  | notFound
  | invalidInput
  | otherErr
deriving DecidableEq

/-- Oracle for the local filesystem: directory/file probes and
canonicalization, as consumed by the destination resolvers. -/
structure LocalFS where
  isDir : String → Bool
  isFile : String → Bool
  canonicalize : String → Except LocalErrKind String

/-- Mirror of `commands::get_file` (src/commands.rs) up to the transfer call:
resolves the remote source to (bucket, key) and the local destination to a
concrete path, or fails.  Returns the triple handed to `download_object`. -/
def get_file_resolve (fs : LocalFS) (remote_cwd local_cwd : String)
    (remote_source : String) (local_destination : Option String) :
    Except ErrorKind (String × String × String) :=
  let source_path := clean (joinPath remote_cwd remote_source)
  match S3Path.try_from_path source_path with
  | .error e => .error e
  | .ok s3_path =>
    match s3_path.bucket, s3_path.key with
    | some bucket, some key =>
      match local_destination with
      | some local_dest =>
        let non_canonical_path := joinPath local_cwd local_dest
        if fs.isDir non_canonical_path then
          match fs.canonicalize non_canonical_path with
          | .error _ => .error .ioErr
          | .ok dest_dir =>
            .ok (bucket, key, joinPath dest_dir ((fileName source_path).getD "unknown_s3_file"))
        else if fs.isFile non_canonical_path then .error .targetAlreadyExists
        else if endsWithSep non_canonical_path then .error .invalidTarget
        else
          let path_without_filename := popPath non_canonical_path
          if fs.isDir path_without_filename then
            match fs.canonicalize path_without_filename with
            | .error _ => .error .ioErr
            | .ok dest_dir =>
              .ok (bucket, key, joinPath dest_dir
                (((fileName non_canonical_path).or (fileName source_path)).getD "unknown_s3_file"))
          else .error .invalidTarget
      | none =>
        match fileName source_path with
        | none => .error .other
        | some dest_filename =>
          let dest_filepath := joinPath local_cwd dest_filename
          if fs.isFile dest_filepath then .error .targetAlreadyExists
          else .ok (bucket, key, dest_filepath)
    | _, _ => .error .invalidTarget

/-- Mirror of the inline `Command::GetFile` arm of `Runner::run_command`
(src/lib.rs, the implementation the binary actually dispatches to) up to the
transfer call.  It differs from `commands::get_file`: an existing regular
file at a given destination yields `InvalidTarget`, and with no destination
argument no existence check is made before downloading. -/
def runner_get_file_resolve (fs : LocalFS) (remote_cwd local_cwd : String)
    (remote_source : String) (local_destination : Option String) :
    Except ErrorKind (String × String × String) :=
  let source_path := clean (joinPath remote_cwd remote_source)
  match S3Path.try_from_path source_path with
  | .error e => .error e
  | .ok s3_path =>
    match s3_path.bucket, s3_path.key with
    | some bucket, some key =>
      match local_destination with
      | some local_dest =>
        let non_canonical_path := joinPath local_cwd local_dest
        if fs.isDir non_canonical_path then
          match fs.canonicalize non_canonical_path with
          | .error _ => .error .ioErr
          | .ok dest_dir =>
            .ok (bucket, key, joinPath dest_dir ((fileName source_path).getD "unknown_s3_file"))
        else if fs.isFile non_canonical_path || endsWithSep non_canonical_path then
          .error .invalidTarget
        else
          let path_without_filename := popPath non_canonical_path
          if fs.isDir path_without_filename then
            match fs.canonicalize path_without_filename with
            | .error _ => .error .ioErr
            | .ok dest_dir =>
              .ok (bucket, key, joinPath dest_dir
                (((fileName non_canonical_path).or (fileName source_path)).getD "unknown_s3_file"))
          else .error .invalidTarget
      | none =>
        match fileName source_path with
        | none => .error .other
        | some dest_filename => .ok (bucket, key, joinPath local_cwd dest_filename)
    | _, _ => .error .invalidTarget

/-- Remote destination key path computed by `commands::put_file`: the cleaned
user destination, or the cleaned source file name under the remote cwd. -/
def put_dest_path (remote_cwd : String) (src_path : String)
    (remote_destination : Option String) : String :=
  match remote_destination with
  | some remote_dir => clean (joinPath remote_cwd remote_dir)
  | none => clean (joinPath remote_cwd ((fileName src_path).getD "unknown_s3_file"))

/-- Mirror of `commands::put_file` (src/commands.rs) up to the transfer call:
canonicalize and check the local source, resolve the remote (bucket, key),
probe for an existing object, and only then allow the upload.  `objectKeys`
gives the keys the service stores per bucket. -/
def put_file_resolve (fs : LocalFS) (objectKeys : String → List String)
    (remote_cwd local_cwd : String) (local_source : String)
    (remote_destination : Option String) : Except ErrorKind (String × String) :=
  match fs.canonicalize (joinPath local_cwd local_source) with
  | .error _ => .error .ioErr
  | .ok src_path =>
    if fs.isFile src_path then
      let dest_path := put_dest_path remote_cwd src_path remote_destination
      match S3Path.try_from_path dest_path with
      | .error e => .error e
      | .ok s3_path =>
        match s3_path.bucket, s3_path.key with
        | some bucket, some key =>
          if objectExists (objectKeys bucket) key then .error .targetAlreadyExists
          else .ok (bucket, key)
        | _, _ => .error .invalidTarget
    else .error .invalidTarget

/-- Mirror of the inline `Command::PutFile` arm of `Runner::run_command`
(src/lib.rs lines 305-311): the arm is a `todo impl` stub that returns
`Ok("ok")` without resolving, probing, or uploading anything. -/
def runner_put_file (_local_source : String) (_remote_destination : Option String) :
    Except ErrorKind String :=
  .ok "ok"

/-- The storage collaborator as seen by the session: bucket enumeration data
and, per (bucket, queried prefix), the pages the paged listing returns. -/
structure S3Service where
  bucketNames : List (Option String)
  pages : String → Option String → List S3Page

/-- Mirror of the `Command::ChangeRemoteDirectory` arm of
`Runner::run_command`: push the argument onto the remote cwd and clean it
lexically; no remote validation occurs. -/
def runner_change_remote_directory (remote_cwd dir : String) : String :=
  clean (joinPath remote_cwd dir)

/-- Mirror of the `Command::ListRemoteDirectory` arm of `Runner::run_command`
(src/lib.rs): parse the remote cwd; with a bucket, list files using the key
as the queried prefix (no delimiter is appended); without a bucket, list all
buckets; on `InvalidTarget`, reset the cwd to `/` and list buckets.  Returns
the new remote cwd and the printed text. -/
def runner_list_remote_directory (svc : S3Service) (remote_cwd : String) :
    String × String :=
  match S3Path.try_from_path remote_cwd with
  | .ok { bucket := some bucket, key := key } =>
    let files := listFiles key (svc.pages bucket key)
    (remote_cwd,
      if files.isEmpty then "There are no files at this path.\n"
      else String.intercalate "\n" files)
  | .ok { bucket := none, key := _ } =>
    (remote_cwd, String.intercalate "\n" (listBuckets svc.bucketNames))
  | .error _ => ("/", String.intercalate "\n" (listBuckets svc.bucketNames))

/-- The two pieces of local state `lcd` touches: the session cursor and the
process working directory set through `set_current_dir`. -/
structure RunnerCursor where
  local_cwd : String
  proc_cwd : String
deriving DecidableEq

/-- Oracle for the local environment of `lcd`: canonicalization and the
outcome of `set_current_dir` (`none` meaning success). -/
structure LocalEnv where
  canonicalize : String → Except LocalErrKind String
  setCurrentDirFails : String → Option LocalErrKind

/-- Mirror of the `Command::ChangeLocalDirectory` arm of `Runner::run_command`
(src/lib.rs): join and canonicalize, then set the process working directory;
on success update the cursor; on a not-found or invalid-path failure report a
friendly message and leave the cursor alone; propagate any other failure. -/
def runner_change_local_directory (env : LocalEnv) (st : RunnerCursor) (dir : String) :
    RunnerCursor × Except ErrorKind String :=
  let new_path := joinPath st.local_cwd dir
  let canonical_path : Except LocalErrKind String :=
    match env.canonicalize new_path with
    | .error e => .error e
    | .ok p =>
      match env.setCurrentDirFails p with
      | some e => .error e
      | none => .ok p
  match canonical_path with
  | .ok good_new_path =>
    ({ local_cwd := good_new_path, proc_cwd := good_new_path },
      .ok ("Local directory is now: " ++ good_new_path))
  | .error LocalErrKind.notFound => (st, .ok ("Directory not found: " ++ new_path))
  | .error LocalErrKind.invalidInput => (st, .ok ("Invalid path: " ++ new_path))
  | .error _ => (st, .error .ioErr)

/-- Transitivity of the lexicographic comparison. -/
theorem lexLe_trans (x y z : List Char) (h1 : lexLe x y = true)
    (h2 : lexLe y z = true) : lexLe x z = true := by
  induction x generalizing y z with
  | nil => rfl
  | cons a as ih =>
    cases y with
    | nil => simp [lexLe] at h1
    | cons b bs =>
      cases z with
      | nil => simp [lexLe] at h2
      | cons c cs =>
        rcases lt_trichotomy a b with hab | rfl | hab
        · rcases lt_trichotomy b c with hbc | rfl | hbc
          · simp [lexLe, lt_trans hab hbc]
          · simp [lexLe, hab]
          · rw [lexLe, if_neg (asymm hbc), if_pos hbc] at h2; simp at h2
        · rw [lexLe, if_neg (lt_irrefl a), if_neg (lt_irrefl a)] at h1
          rcases lt_trichotomy a c with hac | rfl | hac
          · simp [lexLe, hac]
          · rw [lexLe, if_neg (lt_irrefl a), if_neg (lt_irrefl a)] at h2 ⊢
            exact ih bs cs h1 h2
          · rw [lexLe, if_neg (asymm hac), if_pos hac] at h2; simp at h2
        · rw [lexLe, if_neg (asymm hab), if_pos hab] at h1; simp at h1

/-- Totality of the lexicographic comparison. -/
theorem lexLe_total (x y : List Char) : lexLe x y = true ∨ lexLe y x = true := by
  induction x generalizing y with
  | nil => left; rfl
  | cons a as ih =>
    cases y with
    | nil => right; rfl
    | cons b bs =>
      rcases lt_trichotomy a b with hab | rfl | hab
      · left; simp [lexLe, hab]
      · rcases ih bs with h | h
        · left; rw [lexLe, if_neg (lt_irrefl a), if_neg (lt_irrefl a)]; exact h
        · right; rw [lexLe, if_neg (lt_irrefl a), if_neg (lt_irrefl a)]; exact h
      · right; simp [lexLe, hab]

/-- Antisymmetry of the lexicographic comparison. -/
theorem lexLe_antisymm (x y : List Char) (h1 : lexLe x y = true)
    (h2 : lexLe y x = true) : x = y := by
  induction x generalizing y with
  | nil =>
    cases y with
    | nil => rfl
    | cons b bs => simp [lexLe] at h2
  | cons a as ih =>
    cases y with
    | nil => simp [lexLe] at h1
    | cons b bs =>
      rcases lt_trichotomy a b with hab | rfl | hab
      · rw [lexLe, if_neg (asymm hab), if_pos hab] at h2; simp at h2
      · rw [lexLe, if_neg (lt_irrefl a), if_neg (lt_irrefl a)] at h1 h2
        rw [ih bs h1 h2]
      · rw [lexLe, if_neg (asymm hab), if_pos hab] at h1; simp at h1

/-- Strings with the same character data are equal. -/
theorem strData_inj {s t : String} (h : s.data = t.data) : s = t := by
  cases s; cases t; exact congrArg String.mk h

instance : IsTrans String strLeP :=
  ⟨fun a b c h1 h2 => lexLe_trans a.data b.data c.data h1 h2⟩

instance : IsTotal String strLeP :=
  ⟨fun a b => lexLe_total a.data b.data⟩

instance : IsAntisymm String strLeP :=
  ⟨fun a b h1 h2 => strData_inj (lexLe_antisymm a.data b.data h1 h2)⟩

/-- The sorting step permutes its input. -/
theorem sortStrings_perm (l : List String) : List.Perm (sortStrings l) l :=
  List.perm_insertionSort strLeP l

/-- The sorting step sorts lexicographically. -/
theorem sortStrings_sorted (l : List String) : List.Sorted strLeP (sortStrings l) :=
  List.sorted_insertionSort strLeP l

/-- Sorting is invariant under permutation of the input: the two sorted lists
are permutations of each other and both sorted, hence equal. -/
theorem sortStrings_eq_of_perm {l1 l2 : List String} (h : List.Perm l1 l2) :
    sortStrings l1 = sortStrings l2 :=
  List.eq_of_perm_of_sorted
    ((sortStrings_perm l1).trans (h.trans (sortStrings_perm l2).symm))
    (sortStrings_sorted l1) (sortStrings_sorted l2)

/-- All common prefixes the service delivered across the pages, in arrival
order, with absent fields dropped as the code drops them. -/
def deliveredPrefixes (pages : List S3Page) : List String :=
  pages.foldr (fun p acc => (p.commonPrefixes.getD []).filterMap id ++ acc) []

/-- All object keys the service delivered across the pages, in arrival order,
with absent fields dropped as the code drops them. -/
def deliveredKeys (pages : List S3Page) : List String :=
  pages.foldr (fun p acc => (p.contents.getD []).filterMap id ++ acc) []

/-- The page loop of `list_files` accumulates exactly the normalized names of
all delivered entries, in arrival order. -/
theorem listFiles_foldl (pfx? : Option String) (pages : List S3Page)
    (xs ys : List String) :
    pages.foldl
        (fun acc page => (acc.1 ++ pageDirNames pfx? page, acc.2 ++ pageFileNames pfx? page))
        (xs, ys)
      = (xs ++ (deliveredPrefixes pages).filterMap (cleanCommonPfx pfx?),
         ys ++ (deliveredKeys pages).filterMap (cleanKey pfx?)) := by
  induction pages generalizing xs ys with
  | nil => simp [deliveredPrefixes, deliveredKeys]
  | cons p ps ih =>
    rw [List.foldl_cons, ih]
    simp [deliveredPrefixes, deliveredKeys, List.foldr_cons, List.filterMap_append,
      pageDirNames, pageFileNames, List.append_assoc]

/-- Closed form of `list_files`: sorted normalized prefixes, then sorted
normalized keys. -/
theorem listFiles_eq (pfx? : Option String) (pages : List S3Page) :
    listFiles pfx? pages =
      sortStrings ((deliveredPrefixes pages).filterMap (cleanCommonPfx pfx?)) ++
      sortStrings ((deliveredKeys pages).filterMap (cleanKey pfx?)) := by
  simp [listFiles, listFiles_foldl]

/-- C3: for any pages the paged listObjects service delivers, `list_files`
returns exactly the sorted prefix-stripped pseudo-directory names followed by
the sorted prefix-stripped file names, each group lexicographically sorted
with all pseudo-directories ahead of all files; and the result is the same
for any other partition of the same entries into pages, in any arrival
order. -/
theorem c3_listing_order_invariant (pfx? : Option String) (pages1 pages2 : List S3Page)
    (hd : List.Perm (deliveredPrefixes pages1) (deliveredPrefixes pages2))
    (hk : List.Perm (deliveredKeys pages1) (deliveredKeys pages2)) :
    listFiles pfx? pages1 =
        sortStrings ((deliveredPrefixes pages1).filterMap (cleanCommonPfx pfx?)) ++
        sortStrings ((deliveredKeys pages1).filterMap (cleanKey pfx?)) ∧
    List.Sorted strLeP
        (sortStrings ((deliveredPrefixes pages1).filterMap (cleanCommonPfx pfx?))) ∧
    List.Sorted strLeP
        (sortStrings ((deliveredKeys pages1).filterMap (cleanKey pfx?))) ∧
    listFiles pfx? pages1 = listFiles pfx? pages2 := by
  refine ⟨listFiles_eq pfx? pages1, sortStrings_sorted _, sortStrings_sorted _, ?_⟩
  rw [listFiles_eq pfx? pages1, listFiles_eq pfx? pages2,
    sortStrings_eq_of_perm (hd.filterMap (cleanCommonPfx pfx?)),
    sortStrings_eq_of_perm (hk.filterMap (cleanKey pfx?))]

/-- Concrete pages used to witness C3: same entries, different page
boundaries and arrival order. -/
def c3PagesA : List S3Page :=
  [{ commonPrefixes := some [some "photos/b/"], contents := some [some "photos/k2"] },
   { commonPrefixes := some [some "photos/a/"], contents := none }]

/-- Second partition of the entries of `c3PagesA`. -/
def c3PagesB : List S3Page :=
  [{ commonPrefixes := none, contents := some [some "photos/k2"] },
   { commonPrefixes := some [some "photos/a/", some "photos/b/"], contents := none }]

/-- Witness for C3 at a concrete repartitioned page split. -/
theorem c3_listing_order_invariant_witness :
    List.Perm (deliveredPrefixes c3PagesA) (deliveredPrefixes c3PagesB) ∧
    listFiles (some "photos/") c3PagesA = listFiles (some "photos/") c3PagesB :=
  ⟨by decide,
   (c3_listing_order_invariant (some "photos/") c3PagesA c3PagesB
      (by decide) (by decide)).2.2.2⟩

/-- C7: an object key whose remainder after stripping the queried prefix
still contains the delimiter is excluded from the file portion of the
listing, and hence no file name in the listing contains a delimiter. -/
theorem c7_no_duplicate_entries (pfx? : Option String) (pages : List S3Page) :
    (∀ k r, k ∈ deliveredKeys pages → stripRemainder pfx? k = some r →
        containsSlash r = true → cleanKey pfx? k = none) ∧
    (∀ s, s ∈ sortStrings ((deliveredKeys pages).filterMap (cleanKey pfx?)) →
        containsSlash s = false) ∧
    listFiles pfx? pages =
      sortStrings ((deliveredPrefixes pages).filterMap (cleanCommonPfx pfx?)) ++
      sortStrings ((deliveredKeys pages).filterMap (cleanKey pfx?)) := by
  refine ⟨?_, ?_, listFiles_eq pfx? pages⟩
  · intro k r _ hstrip hr
    simp [cleanKey, hstrip, hr]
  · intro s hs
    have hs' : s ∈ (deliveredKeys pages).filterMap (cleanKey pfx?) :=
      (sortStrings_perm _).mem_iff.mp hs
    rcases List.mem_filterMap.mp hs' with ⟨k, _, hk⟩
    rcases hck : stripRemainder pfx? k with _ | r
    · simp only [cleanKey, hck] at hk
      cases hk
    · simp only [cleanKey, hck] at hk
      by_cases hr : containsSlash r = true
      · rw [if_pos hr] at hk
        cases hk
      · rw [if_neg hr] at hk
        cases hk
        simpa using hr

/-- Concrete page used to witness C7. -/
def c7Pages : List S3Page :=
  [{ commonPrefixes := some [some "photos/a/"], contents := some [some "photos/a/b.txt"] }]

/-- Witness for C7: a delivered key one level deeper than the queried prefix
is excluded from the file set. -/
theorem c7_no_duplicate_entries_witness :
    cleanKey (some "photos/") "photos/a/b.txt" = none :=
  (c7_no_duplicate_entries (some "photos/") c7Pages).1 "photos/a/b.txt" "a/b.txt"
    (by decide) (by decide) (by decide)

/-- Does a parent-dir or current-dir component occur before the first normal
component?  This is the only place `try_from_path` can see one while it scans
for the bucket. -/
def leadingInvalid : List PathComponent → Bool
  | [] => false
  | PathComponent.parentDir :: _ => true
  | PathComponent.curDir :: _ => true
  | PathComponent.normal _ :: _ => false
  | PathComponent.rootDir :: rest => leadingInvalid rest

/-- The bucket scan fails exactly when a parent-dir or current-dir component
precedes the first normal component. -/
theorem findBucket_error_iff (cs : List PathComponent) :
    findBucketComponent cs = Except.error ErrorKind.invalidTarget ↔
      leadingInvalid cs = true := by
  induction cs with
  | nil => simp [findBucketComponent, leadingInvalid]
  | cons c rest ih =>
    cases c with
    | rootDir =>
      simp only [findBucketComponent, leadingInvalid]
      exact ih
    | curDir => simp [findBucketComponent, leadingInvalid]
    | parentDir => simp [findBucketComponent, leadingInvalid]
    | normal n => simp [findBucketComponent, leadingInvalid]

/-- The bucket scan produces no error kind other than `InvalidTarget`. -/
theorem findBucket_error_kind (cs : List PathComponent) (e : ErrorKind)
    (h : findBucketComponent cs = Except.error e) : e = ErrorKind.invalidTarget := by
  induction cs with
  | nil => simp [findBucketComponent] at h
  | cons c rest ih =>
    cases c with
    | rootDir =>
      simp only [findBucketComponent] at h
      exact ih h
    | curDir =>
      simp only [findBucketComponent, Except.error.injEq] at h
      exact h.symm
    | parentDir =>
      simp only [findBucketComponent, Except.error.injEq] at h
      exact h.symm
    | normal n => simp [findBucketComponent] at h

/-- C5 (amended): `try_from_path` fails with `InvalidTarget` exactly when a
parent-dir or current-dir component occurs before the first normal (bucket)
component; components after the bucket are not inspected. -/
theorem c5_parent_components_only_rejected_before_bucket (s : String) :
    S3Path.try_from_path s = Except.error ErrorKind.invalidTarget ↔
      leadingInvalid (pathComponents s) = true := by
  rcases hf : findBucketComponent (pathComponents s) with e | v
  · have he := findBucket_error_kind (pathComponents s) e hf
    subst he
    simp [S3Path.try_from_path, hf, (findBucket_error_iff (pathComponents s)).mp hf]
  · have hne : ¬ leadingInvalid (pathComponents s) = true := by
      intro hl
      rw [← findBucket_error_iff] at hl
      rw [hf] at hl
      cases hl
    rcases v with _ | ⟨b, rest⟩
    · simp [S3Path.try_from_path, hf, hne]
    · simp [S3Path.try_from_path, hf, hne]

/-- Counterexample for C5 as stated: a path containing a `".."` component
after the bucket is accepted, and the component flows into the key. -/
theorem c5_parent_component_after_bucket_cex :
    PathComponent.parentDir ∈ pathComponents "/b/../k" ∧
    S3Path.try_from_path "/b/../k" =
      Except.ok { bucket := some "b", key := some "../k" } ∧
    S3Path.try_from_path "/b/../k" ≠ Except.error ErrorKind.invalidTarget := by decide

/-- Counterexample input for C8: bucket names as the service returns them. -/
def c8BucketNames : List (Option String) := [some "b", some "a"]

/-- Counterexample for C8 as stated: `list_buckets` keeps the service order
and does not sort. -/
theorem c8_bucket_listing_unsorted_cex :
    listBuckets c8BucketNames = ["b", "a"] ∧
    sortStrings (listBuckets c8BucketNames) = ["a", "b"] ∧
    listBuckets c8BucketNames ≠ sortStrings (listBuckets c8BucketNames) := by decide

/-- C8 (amended): at the root virtual path the session enumerates all
containers and prints the present bucket names as a flat sequence in service
order, with no directory/file distinction and no sorting. -/
theorem c8_bucket_listing_service_order (svc : S3Service) (names : List String) :
    runner_list_remote_directory svc "/" =
      ("/", String.intercalate "\n" (listBuckets svc.bucketNames)) ∧
    listBuckets (names.map some) = names := by
  constructor
  · rfl
  · induction names with
    | nil => rfl
    | cons n ns ih =>
      simp only [listBuckets, List.map_cons, List.filterMap_cons, id] at ih ⊢
      rw [ih]

/-- Service used for the C4 scenario: container `mybucket` answers the same
page for the queried prefix whether or not a trailing delimiter was
appended, so the outcome pins down what the code actually queried. -/
def c4Svc : S3Service where
  bucketNames := []
  pages := fun b p =>
    if b = "mybucket" ∧ (p = some "photos" ∨ p = some "photos/") then
      [{ commonPrefixes := some [some "photos/2024/"],
         contents := some [some "photos/cover.jpg"] }]
    else []

/-- Counterexample for C4 as stated: after `cd mybucket/photos` the listing of
the response with common prefix `photos/2024/` and key `photos/cover.jpg` is
not `["2024", "cover.jpg"]`. -/
theorem c4_listing_scenario_cex :
    runner_change_remote_directory "/" "mybucket/photos" = "/mybucket/photos" ∧
    (runner_list_remote_directory c4Svc "/mybucket/photos").2 ≠
      String.intercalate "\n" ["2024", "cover.jpg"] := by decide

/-- C4 (amended): after `cd mybucket/photos` the session queries container
`mybucket` with prefix `photos` (no trailing delimiter is appended); the
common prefix `photos/2024/` is stripped of that queried prefix, keeping its
delimiters, and the key `photos/cover.jpg` is excluded because its stripped
remainder contains a delimiter, so the listing is `["/2024/"]`. -/
theorem c4_listing_scenario_amended :
    runner_change_remote_directory "/" "mybucket/photos" = "/mybucket/photos" ∧
    S3Path.try_from_path "/mybucket/photos" =
      Except.ok { bucket := some "mybucket", key := some "photos" } ∧
    listFiles (some "photos") (c4Svc.pages "mybucket" (some "photos")) = ["/2024/"] ∧
    runner_list_remote_directory c4Svc "/mybucket/photos" =
      ("/mybucket/photos", "/2024/") := by decide

/-- Local filesystem used for the C1 failing input: `/home/u` is the local
cwd and `/home/u/report.csv` already exists as a regular file. -/
def c1Fs : LocalFS where
  isDir := fun p => decide (p = "/home/u")
  isFile := fun p => decide (p = "/home/u/report.csv")
  canonicalize := fun p =>
    if p = "/home/u" then .ok "/home/u" else .error .notFound

/-- C1 at its failing input: the dispatched `GetFile` arm (src/lib.rs)
resolves a download onto the existing regular file `/home/u/report.csv` when
no destination is given, and reports `InvalidTarget` rather than
`TargetAlreadyExists` when a given destination names that file; the unwired
`commands::get_file` implements the claimed guard in both cases. -/
theorem c1_download_overwrite_guard_divergence :
    c1Fs.isFile "/home/u/report.csv" = true ∧
    runner_get_file_resolve c1Fs "/" "/home/u" "b/report.csv" none =
      Except.ok ("b", "report.csv", "/home/u/report.csv") ∧
    runner_get_file_resolve c1Fs "/" "/home/u" "b/other.csv" (some "report.csv") =
      Except.error ErrorKind.invalidTarget ∧
    get_file_resolve c1Fs "/" "/home/u" "b/report.csv" none =
      Except.error ErrorKind.targetAlreadyExists ∧
    get_file_resolve c1Fs "/" "/home/u" "b/other.csv" (some "report.csv") =
      Except.error ErrorKind.targetAlreadyExists := by decide

/-- Local filesystem used for the C2 failing input. -/
def c2Fs : LocalFS where
  isDir := fun _ => false
  isFile := fun p => decide (p = "/home/u/notes.txt")
  canonicalize := fun p =>
    if p = "/home/u/notes.txt" then .ok "/home/u/notes.txt" else .error .notFound

/-- Object keys stored per bucket for the C2 failing input: the target key is
already occupied. -/
def c2ObjectKeys : String → List String :=
  fun b => if b = "mybucket" then ["docs/notes.txt"] else []

/-- C2 at its failing input: the dispatched `PutFile` arm (src/lib.rs) is a
stub that returns `Ok("ok")` without probing or uploading, while the unwired
`commands::put_file` resolver performs the probe and fails with
`TargetAlreadyExists` on an occupied key (and uploads on a free one). -/
theorem c2_upload_overwrite_guard_divergence :
    runner_put_file "notes.txt" (some "docs/notes.txt") = Except.ok "ok" ∧
    put_file_resolve c2Fs c2ObjectKeys "/mybucket" "/home/u" "notes.txt"
        (some "docs/notes.txt") = Except.error ErrorKind.targetAlreadyExists ∧
    put_file_resolve c2Fs c2ObjectKeys "/mybucket" "/home/u" "notes.txt"
        (some "docs/other.txt") = Except.ok ("mybucket", "docs/other.txt") := by decide

/-- C6: when the user-supplied download destination does not exist on disk,
both destination resolvers fail with `InvalidTarget` if the destination ends
in a separator; otherwise they take the final component as the destination
filename, require the popped parent to be an existing directory (failing with
`InvalidTarget` when it is not), canonicalize that parent rather than the
full path, and resolve to the canonicalized parent joined with the
filename. -/
theorem c6_nonexistent_destination_resolution (fs : LocalFS)
    (remote_cwd local_cwd remote_source d bucket key : String)
    (hsrc : S3Path.try_from_path (clean (joinPath remote_cwd remote_source)) =
      Except.ok { bucket := some bucket, key := some key })
    (hdir : fs.isDir (joinPath local_cwd d) = false)
    (hfile : fs.isFile (joinPath local_cwd d) = false) :
    (endsWithSep (joinPath local_cwd d) = true →
      get_file_resolve fs remote_cwd local_cwd remote_source (some d) =
          Except.error ErrorKind.invalidTarget ∧
      runner_get_file_resolve fs remote_cwd local_cwd remote_source (some d) =
          Except.error ErrorKind.invalidTarget) ∧
    (endsWithSep (joinPath local_cwd d) = false →
      (fs.isDir (popPath (joinPath local_cwd d)) = false →
        get_file_resolve fs remote_cwd local_cwd remote_source (some d) =
            Except.error ErrorKind.invalidTarget ∧
        runner_get_file_resolve fs remote_cwd local_cwd remote_source (some d) =
            Except.error ErrorKind.invalidTarget) ∧
      (∀ c, fs.isDir (popPath (joinPath local_cwd d)) = true →
        fs.canonicalize (popPath (joinPath local_cwd d)) = Except.ok c →
        get_file_resolve fs remote_cwd local_cwd remote_source (some d) =
            Except.ok (bucket, key,
              joinPath c (((fileName (joinPath local_cwd d)).or
                (fileName (clean (joinPath remote_cwd remote_source)))).getD
                  "unknown_s3_file")) ∧
        runner_get_file_resolve fs remote_cwd local_cwd remote_source (some d) =
            Except.ok (bucket, key,
              joinPath c (((fileName (joinPath local_cwd d)).or
                (fileName (clean (joinPath remote_cwd remote_source)))).getD
                  "unknown_s3_file")))) := by
  refine ⟨fun hsep => ?_, fun hsep => ⟨fun hpd => ?_, fun c hpd hc => ?_⟩⟩
  · constructor <;>
      simp [get_file_resolve, runner_get_file_resolve, hsrc, hdir, hfile, hsep]
  · constructor <;>
      simp [get_file_resolve, runner_get_file_resolve, hsrc, hdir, hfile, hsep, hpd]
  · constructor <;>
      simp [get_file_resolve, runner_get_file_resolve, hsrc, hdir, hfile, hsep, hpd, hc]

/-- Local filesystem used to witness C6: `/home/u/backup` is an existing
directory and nothing else exists. -/
def c6Fs : LocalFS where
  isDir := fun p => decide (p = "/home/u/backup")
  isFile := fun _ => false
  canonicalize := fun p =>
    if p = "/home/u/backup" then .ok "/home/u/backup" else .error .notFound

/-- Witness for C6: a fresh filename under an existing directory resolves to
that directory joined with the filename, and a trailing separator on a
nonexistent destination is rejected. -/
theorem c6_nonexistent_destination_resolution_witness :
    get_file_resolve c6Fs "/" "/home/u" "b/data.bin" (some "backup/newname.bin") =
      Except.ok ("b", "data.bin", "/home/u/backup/newname.bin") ∧
    get_file_resolve c6Fs "/" "/home/u" "b/data.bin" (some "backup/sub/") =
      Except.error ErrorKind.invalidTarget := by
  constructor
  · have h := ((c6_nonexistent_destination_resolution c6Fs "/" "/home/u" "b/data.bin"
      "backup/newname.bin" "b" "data.bin" (by decide) (by decide) (by decide)).2
      (by decide)).2 "/home/u/backup" (by decide) (by decide)
    exact h.1.trans (by decide)
  · exact ((c6_nonexistent_destination_resolution c6Fs "/" "/home/u" "b/data.bin"
      "backup/sub/" "b" "data.bin" (by decide) (by decide) (by decide)).1 (by decide)).1

/-- C9: `lcd` leaves the cursor untouched and keeps the session alive with a
friendly message when canonicalization reports not-found or invalid-path; on
success it updates both the cursor and the process working directory to the
canonicalized path; any other failure propagates as an error. -/
theorem c9_lcd_atomicity (env : LocalEnv) (st : RunnerCursor) (dir : String) :
    (env.canonicalize (joinPath st.local_cwd dir) = Except.error LocalErrKind.notFound →
      runner_change_local_directory env st dir =
        (st, Except.ok ("Directory not found: " ++ joinPath st.local_cwd dir))) ∧
    (env.canonicalize (joinPath st.local_cwd dir) = Except.error LocalErrKind.invalidInput →
      runner_change_local_directory env st dir =
        (st, Except.ok ("Invalid path: " ++ joinPath st.local_cwd dir))) ∧
    (∀ p, env.canonicalize (joinPath st.local_cwd dir) = Except.ok p →
      env.setCurrentDirFails p = none →
      runner_change_local_directory env st dir =
        ({ local_cwd := p, proc_cwd := p },
          Except.ok ("Local directory is now: " ++ p))) ∧
    (env.canonicalize (joinPath st.local_cwd dir) = Except.error LocalErrKind.otherErr →
      runner_change_local_directory env st dir = (st, Except.error ErrorKind.ioErr)) := by
  refine ⟨fun h => ?_, fun h => ?_, fun p h hs => ?_, fun h => ?_⟩
  · simp [runner_change_local_directory, h]
  · simp [runner_change_local_directory, h]
  · simp [runner_change_local_directory, h, hs]
  · simp [runner_change_local_directory, h]

/-- Local environment used to witness C9. -/
def c9Env : LocalEnv where
  canonicalize := fun p =>
    if p = "/home/u/proj" then .ok "/home/u/proj" else .error .notFound
  setCurrentDirFails := fun _ => none

/-- Cursor state used to witness C9. -/
def c9St : RunnerCursor := { local_cwd := "/home/u", proc_cwd := "/home/u" }

/-- Witness for C9: a successful `lcd` and a not-found `lcd` at concrete
inputs. -/
theorem c9_lcd_atomicity_witness :
    runner_change_local_directory c9Env c9St "proj" =
      ({ local_cwd := "/home/u/proj", proc_cwd := "/home/u/proj" },
        Except.ok ("Local directory is now: " ++ "/home/u/proj")) ∧
    runner_change_local_directory c9Env c9St "missing" =
      (c9St, Except.ok ("Directory not found: " ++ joinPath "/home/u" "missing")) :=
  ⟨(c9_lcd_atomicity c9Env c9St "proj").2.2.1 "/home/u/proj" (by decide) (by decide),
   (c9_lcd_atomicity c9Env c9St "missing").1 (by decide)⟩

/-- A filtered list has nonzero length exactly when some element passes the
filter. -/
theorem filter_length_ne_zero_eq_any (l : List String) (p : String → Bool) :
    decide ((l.filter p).length ≠ 0) = l.any p := by
  induction l with
  | nil => rfl
  | cons a as ih =>
    cases h : p a
    · simpa [List.filter_cons, h, List.any_cons] using ih
    · simp [List.filter_cons, h, List.any_cons]

/-- C10: `object_exists` lists with the key as prefix and no delimiter and
reports true exactly when some stored key starts with the probed key;
consequently the `put_file` overwrite guard also rejects an upload to a fresh
key that is a proper prefix of another object's key. -/
theorem c10_object_exists_prefix_probe (objectKeys : List String) (key : String)
    (keysOf : String → List String) (fs : LocalFS)
    (remote_cwd local_cwd local_source : String) (remote_destination : Option String)
    (src_path bucket tkey : String)
    (hc : fs.canonicalize (joinPath local_cwd local_source) = Except.ok src_path)
    (hf : fs.isFile src_path = true)
    (hd : S3Path.try_from_path (put_dest_path remote_cwd src_path remote_destination) =
      Except.ok { bucket := some bucket, key := some tkey })
    (hex : (keysOf bucket).any (fun k => tkey.data.isPrefixOf k.data) = true)
    (_hfresh : tkey ∉ keysOf bucket) :
    objectExists objectKeys key = objectKeys.any (fun k => key.data.isPrefixOf k.data) ∧
    put_file_resolve fs keysOf remote_cwd local_cwd local_source remote_destination =
      Except.error ErrorKind.targetAlreadyExists := by
  constructor
  · simp only [objectExists, s3KeyCount]
    exact filter_length_ne_zero_eq_any objectKeys (fun k => key.data.isPrefixOf k.data)
  · have hex' : objectExists (keysOf bucket) tkey = true := by
      simp only [objectExists, s3KeyCount]
      rw [filter_length_ne_zero_eq_any]
      exact hex
    simp [put_file_resolve, hc, hf, hd, hex']

/-- Keys stored per bucket for the C10 witness: only a longer key exists. -/
def c10KeysOf : String → List String :=
  fun b => if b = "mybucket" then ["docs/notes.txt.bak"] else []

/-- Local filesystem for the C10 witness. -/
def c10Fs : LocalFS where
  isDir := fun _ => false
  isFile := fun p => decide (p = "/home/u/notes.txt")
  canonicalize := fun p =>
    if p = "/home/u/notes.txt" then .ok "/home/u/notes.txt" else .error .notFound

/-- Witness for C10: the probe reports true for a fresh key that is a proper
prefix of a stored key, and the upload resolver rejects it. -/
theorem c10_object_exists_prefix_probe_witness :
    objectExists ["docs/notes.txt.bak"] "docs/notes.txt" = true ∧
    put_file_resolve c10Fs c10KeysOf "/mybucket" "/home/u" "notes.txt"
        (some "docs/notes.txt") = Except.error ErrorKind.targetAlreadyExists := by
  have h := c10_object_exists_prefix_probe ["docs/notes.txt.bak"] "docs/notes.txt"
    c10KeysOf c10Fs "/mybucket" "/home/u" "notes.txt" (some "docs/notes.txt")
    "/home/u/notes.txt" "mybucket" "docs/notes.txt"
    (by decide) (by decide) (by decide) (by decide) (by decide)
  exact ⟨h.1.trans (by decide), h.2⟩
